import Mathlib

/-!
Verification of the Things 3 CLI wrapper's scripting-bridge core
(`src/things.ts` / `src/applescript.ts`), following the TypeScript source.

Strings are modelled with Lean `String` (a wrapper around `List Char`).
JavaScript string operations used by the source (`split`, `trim`,
`indexOf(':')`, `substring`, `toLowerCase`, `includes`, `startsWith`) are
given explicit executable models below.
-/

set_option maxHeartbeats 1000000

namespace Things3

/-- The whitespace characters trimmed by JavaScript `String.prototype.trim`
(restricted to the ASCII whitespace actually occurring in the protocol). -/
def wsB (c : Char) : Bool :=
  c == ' ' || c == '\t' || c == '\n' || c == '\r'

/-- Model of JavaScript `s.trim()`: drop whitespace from both ends. -/
def jsTrim (s : String) : String :=
  ⟨(((s.data.dropWhile wsB).reverse.dropWhile wsB).reverse)⟩

/-- Model of JavaScript `s.toLowerCase()` (ASCII-relevant part). -/
def jsToLower (s : String) : String :=
  ⟨s.data.map Char.toLower⟩

/-- The `startsL pre s` : does list `s` start with list `pre`?
Model of JavaScript `String.prototype.startsWith` (on `.data`). -/
def startsL : List Char → List Char → Bool
  | [], _ => true
  | _ :: _, [] => false
  | p :: ps, c :: cs => p == c && startsL ps cs

/-- Model of JavaScript `s.startsWith(pre)`. -/
def jsStartsWith (s pre : String) : Bool :=
  startsL pre.data s.data

/-- Model of JavaScript `s.substring(n)` (drop the first `n` characters). -/
def jsDrop (s : String) (n : Nat) : String :=
  ⟨s.data.drop n⟩

/-- The `hasSubL sub s` : does `s` contain `sub` as a contiguous substring?
Model of JavaScript `String.prototype.includes` (on `.data`). -/
def hasSubL (sub : List Char) : List Char → Bool
  | [] => sub.isEmpty
  | c :: cs => startsL sub (c :: cs) || hasSubL sub cs

/-- Model of JavaScript `s.includes(sub)`. -/
def hasSubS (s sub : String) : Bool :=
  hasSubL sub.data s.data

/-- Fuel-driven worker for `jsSplitOn`: scan left to right, splitting at each
leftmost non-overlapping occurrence of `sep` (JavaScript `String.prototype.split`
with a non-empty string separator).  `cur` is the reversed current piece. -/
def splitGo (sep : List Char) : Nat → List Char → List Char → List (List Char)
  | _, [], cur => [cur.reverse]
  | 0, s, cur => [cur.reverse ++ s]
  | fuel + 1, c :: rest, cur =>
    if startsL sep (c :: rest) then
      cur.reverse :: splitGo sep fuel (List.drop (sep.length - 1) rest) []
    else
      splitGo sep fuel rest (c :: cur)

/-- Model of JavaScript `s.split(sep)` for a non-empty string separator. -/
def jsSplitOn (s sep : String) : List String :=
  (splitGo sep.data s.data.length s.data []).map (fun l => ⟨l⟩)

/-- Model of the JavaScript pattern `const i = f.indexOf(":")` followed by
`f.substring(0, i)` / `f.substring(i + 1)`; `none` when there is no colon
(`indexOf` returned `-1`). -/
def splitFirstColon (s : String) : Option (String × String) :=
  match s.data.dropWhile (· ≠ ':') with
  | [] => none
  | _ :: tail => some (⟨s.data.takeWhile (· ≠ ':')⟩, ⟨tail⟩)

/-- JavaScript truthiness of a string value (`""` is falsy). -/
def truthyS (s : String) : Bool := s != ""

/-- JavaScript truthiness of an optional string value
(`undefined` and `""` are falsy). -/
def truthyOpt : Option String → Bool
  | none => false
  | some s => s != ""

/-- Model of JavaScript `Array.prototype.join(sep)`. -/
def joinSep (sep : String) : List String → String
  | [] => ""
  | x :: xs => xs.foldl (fun acc y => acc ++ sep ++ y) x

/-- One global single-character replacement pass, the model of
`str.replace(/c/g, rep)` where the pattern is the single character `c`. -/
def replaceChar (c : Char) (rep : List Char) : List Char → List Char
  | [] => []
  | x :: xs => (if x = c then rep else [x]) ++ replaceChar c rep xs

/-- The `escapeAppleScript` from `src/things.ts` (lines 384–390): escape
backslashes first, then double quotes, then newline, then carriage return. -/
def escapeAppleScript (s : List Char) : List Char :=
  replaceChar '\r' ['\\', 'r']
    (replaceChar '\n' ['\\', 'n']
      (replaceChar '"' ['\\', '"']
        (replaceChar '\\' ['\\', '\\'] s)))

/-- The `escapeAppleScript` packaged on `String`. -/
def escapeS (s : String) : String :=
  ⟨escapeAppleScript s.data⟩

/-- The per-character escape table that the four ordered replacement passes of
`escapeAppleScript` amount to: each special character is escaped exactly once
(no double escaping). -/
def escChar (c : Char) : List Char :=
  if c = '\\' then ['\\', '\\']
  else if c = '"' then ['\\', '"']
  else if c = '\n' then ['\\', 'n']
  else if c = '\r' then ['\\', 'r']
  else [c]

/-- The `Things3Task` interface from `src/applescript.ts`: optional fields are
`Option`, `status` is the raw status string (the source casts it). -/
structure Things3Task where
  id : String
  name : String
  notes : Option String := none
  dueDate : Option String := none
  tags : Option (List String) := none
  project : Option String := none
  area : Option String := none
  status : String := "open"
  creationDate : Option String := none
  modificationDate : Option String := none
deriving DecidableEq, Repr

/-- The `ListOptions` interface from `src/things.ts`. -/
structure ListOptions where
  list : Option String := none
  project : Option String := none
  area : Option String := none
  tag : Option String := none
deriving DecidableEq, Repr

/-- The regex test `/^\d{4}-\d{2}-\d{2}$/.test(dateStr)` together with the
digit extraction the subsequent `new Date(dateStr)` performs: `some (y, m, d)`
exactly when the string matches the shape. -/
def extractYMD (s : String) : Option (Nat × Nat × Nat) :=
  match s.data with
  | [y1, y2, y3, y4, c1, m1, m2, c2, d1, d2] =>
    if y1.isDigit && y2.isDigit && y3.isDigit && y4.isDigit && c1 == '-' &&
        m1.isDigit && m2.isDigit && c2 == '-' && d1.isDigit && d2.isDigit then
      some ((y1.toNat - 48) * 1000 + (y2.toNat - 48) * 100 + (y3.toNat - 48) * 10 + (y4.toNat - 48),
            (m1.toNat - 48) * 10 + (m2.toNat - 48),
            (d1.toNat - 48) * 10 + (d2.toNat - 48))
    else none
  | _ => none

/-- ECMAScript leap-year rule (`DaysInYear`), used by `new Date` when parsing
an ISO `YYYY-MM-DD` string. -/
def jsLeap (y : Nat) : Bool :=
  (y % 4 == 0 && y % 100 != 0) || y % 400 == 0

/-- Days in month per the ECMAScript ISO date semantics. -/
def jsDaysInMonth (y m : Nat) : Nat :=
  if m == 1 || m == 3 || m == 5 || m == 7 || m == 8 || m == 10 || m == 12 then 31
  else if m == 4 || m == 6 || m == 9 || m == 11 then 30
  else if jsLeap y then 29 else 28

/-- The `isValidDateFormat` from `src/things.ts` (lines 395–404): the regex shape
test, then `!Number.isNaN(new Date(dateStr).getTime())`.  For a string of the
ISO `YYYY-MM-DD` shape, ECMAScript `new Date` yields `NaN` exactly when the
month is outside 1–12 or the day is outside the month's length. -/
def isValidDateFormat (s : String) : Bool :=
  match extractYMD s with
  | some (y, m, d) => decide (1 ≤ m ∧ m ≤ 12 ∧ 1 ≤ d ∧ d ≤ jsDaysInMonth y m)
  | none => false

/-- Partial task record built up while parsing one raw record
(`Partial<Things3Task>` with the initial `status: "open", tags: []`). -/
structure PartialTask where
  id : Option String := none
  name : Option String := none
  notes : Option String := none
  dueDate : Option String := none
  project : Option String := none
  area : Option String := none
  status : String := "open"
  tags : List String := []
deriving DecidableEq, Repr

/-- The initial partial record of `parseAppleScriptTaskList`'s record loop. -/
def initPartial : PartialTask := {}

/-- One iteration of the field loop in `parseAppleScriptTaskList`
(lines 173–210 of `src/things.ts`): split at the first colon, trim the value,
skip empty values, and assign by key.  `nd` abstracts the platform date
normalization `parseDateString` applied to `DUE` values. -/
def applyField (nd : String → String) (p : PartialTask) (f : String) : PartialTask :=
  match splitFirstColon f with
  | none => p
  | some (k, v0) =>
    let v := jsTrim v0
    if v == "" then p
    else if k == "ID" then { p with id := some v }
    else if k == "NAME" then { p with name := some v }
    else if k == "STATUS" then { p with status := v }
    else if k == "NOTES" then { p with notes := some v }
    else if k == "PROJECT" then { p with project := some v }
    else if k == "AREA" then { p with area := some v }
    else if k == "DUE" then { p with dueDate := some (nd v) }
    else if k == "TAGS" then { p with tags := (jsSplitOn v ",").map jsTrim }
    else p

/-- Parse one raw record: fold the `||`-separated fields and keep the task
only if both `ID` and `NAME` were set (`if (task.id && task.name)`). -/
def parseRecord (nd : String → String) (ts : String) : Option Things3Task :=
  let p := (jsSplitOn ts "||").foldl (applyField nd) initPartial
  if truthyOpt p.id && truthyOpt p.name then
    some { id := p.id.getD "", name := p.name.getD "", notes := p.notes,
           dueDate := p.dueDate, tags := some p.tags, project := p.project,
           area := p.area, status := p.status }
  else none

/-- The body of the record loop of `parseAppleScriptTaskList`: push the
parsed record when it has the required fields (`tasks.push(task)`). -/
def pushRecord (nd : String → String) (acc : List Things3Task) (ts : String) :
    List Things3Task :=
  match parseRecord nd ts with
  | some t => acc ++ [t]
  | none => acc

/-- The `parseAppleScriptTaskList` from `src/things.ts` (lines 156–219): empty or
whitespace-only input parses to no tasks; otherwise split on the `TASK_END`
sentinel plus line break, drop whitespace-only records, and push each record
that has both required fields. -/
def parseAppleScriptTaskList (nd : String → String) (result : String) : List Things3Task :=
  if jsTrim result == "" then []
  else
    let taskStrings := (jsSplitOn result "TASK_END\n").filter (fun t => jsTrim t != "")
    taskStrings.foldl (pushRecord nd) []

/-- Does the field `f` carry key `k` with a non-empty trimmed value? -/
def fieldHasKey (k : String) (f : String) : Bool :=
  match splitFirstColon f with
  | some (k', v) => k' == k && jsTrim v != ""
  | none => false

/-- A raw record is well formed when it has both an `ID` field and a `NAME`
field with non-empty values (the spec's "record lacking either `ID` or
`NAME` is dropped"). -/
def wellFormedRecord (ts : String) : Bool :=
  (jsSplitOn ts "||").any (fieldHasKey "ID") && (jsSplitOn ts "||").any (fieldHasKey "NAME")

/-- The case-insensitive substring test of the filter engine:
`task.field?.toLowerCase().includes(filter.toLowerCase())` for a present
field. -/
def fieldIncludes (field : Option String) (low : String) : Bool :=
  match field with
  | some v => hasSubS (jsToLower v) low
  | none => false

/-- The tag test of the filter engine:
`task.tags?.some(t => t.toLowerCase().includes(tagLower))`. -/
def tagsInclude (tags : Option (List String)) (low : String) : Bool :=
  match tags with
  | some ts => ts.any (fun t => hasSubS (jsToLower t) low)
  | none => false

/-- The `filterTasks` from `src/things.ts` (lines 240–271): sequentially apply a
project, area, and tag filter, each only when its option is truthy. -/
def filterTasks (tasks : List Things3Task) (options : ListOptions) : List Things3Task :=
  let f1 :=
    if truthyOpt options.project then
      tasks.filter (fun t => fieldIncludes t.project (jsToLower (options.project.getD "")))
    else tasks
  let f2 :=
    if truthyOpt options.area then
      f1.filter (fun t => fieldIncludes t.area (jsToLower (options.area.getD "")))
    else f1
  if truthyOpt options.tag then
    f2.filter (fun t => tagsInclude t.tags (jsToLower (options.tag.getD "")))
  else f2

/-- Optional clauses of the task-creation script built by `addTask`
(lines 314–370 of `src/things.ts`), in emission order; payloads are the
already-escaped interpolated strings. -/
inductive TaskClause where
  | notesClause (v : String)
  | dueClause (v : String)
  | projectClause (v : String)
  | areaClause (v : String)
  | tagClause (v : String)
deriving DecidableEq, Repr

/-- Optional clauses of the update script built by `editTask`
(lines 660–752 of `src/things.ts`), in emission order. -/
inductive EditClause where
  | setName (v : String)
  | setNotes (v : String)
  | setDue (v : String)
  | ensureTag (v : String)
  | setTagNames (vs : List String)
  | clearTags
  | moveToProject (v : String)
  | setAreaOf (v : String)
deriving DecidableEq, Repr

/-- Optional clauses of the project-creation script built by `addProject`. -/
inductive ProjClause where
  | notesClause (v : String)
  | deadlineClause (v : String)
  | areaClause (v : String)
deriving DecidableEq, Repr

/-- The scripts this system can send through the AppleScript bridge, modelled
structurally. `probe` is the process-existence check that
`verifyThings3Access` sends to System Events; every other script is addressed
to the Things 3 application. -/
inductive Script where
  | probe
  | listRetrieval (selector : String)
  | createTask (name : String) (clauses : List TaskClause)
  | completeScript (name : String)
  | cancelScript (name : String)
  | findTask (name : String)
  | updateTask (id : String) (clauses : List EditClause)
  | createProject (name : String) (clauses : List ProjClause)
  | createArea (name : String)
deriving DecidableEq, Repr

/-- The application a script is addressed to. -/
inductive ScriptTarget where
  | systemEvents
  | things3
deriving DecidableEq, Repr

/-- Target application of each script: only the accessibility probe goes to
System Events; everything else is dispatched to Things 3. -/
def Script.target : Script → ScriptTarget
  | .probe => .systemEvents
  | _ => .things3

/-- The error outcomes of the core operations.  The source throws plain
`Error` objects; each constructor corresponds to one throw site, carrying the
data interpolated into its message (rendered exactly by `renderErr`). -/
inductive ThingsError where
  | notAccessible (msg : String)
  | scriptFailed (msg : String)
  | unknownList (listName : String)
  | invalidDate (dateStr : String)
  | noChanges
  | emptyName (entity : String)
  | notFound (name : String)
  | ambiguous (msg : String)
  | alreadyCompleted (name : String)
  | alreadyCanceled (name : String)
  | alreadyCompletedCancel (name : String)
  | projectNotFound (name : String)
  | areaNotFound (name : String)
  | unexpected (raw : String)
deriving DecidableEq, Repr

/-- The exact message string each throw site produces in the source. -/
def renderErr : ThingsError → String
  | .notAccessible m => m
  | .scriptFailed m => m
  | .unknownList n => "Unknown list: " ++ n ++ ". Valid lists are: Today, Upcoming, Anytime, Someday"
  | .invalidDate d => "Invalid date format: " ++ d ++ ". Expected YYYY-MM-DD format (e.g., 2025-12-31)"
  | .noChanges => "No changes specified. Please provide at least one option to update (--name, --notes, --due, --tags, --project, or --area)"
  | .emptyName e => e ++ " name cannot be empty"
  | .notFound n => "Task not found: " ++ n
  | .ambiguous m => m
  | .alreadyCompleted n => "Task \"" ++ n ++ "\" is already completed"
  | .alreadyCanceled n => "Task \"" ++ n ++ "\" is already canceled"
  | .alreadyCompletedCancel n => "Task \"" ++ n ++ "\" is already completed and cannot be canceled"
  | .projectNotFound n => "Project not found: " ++ n
  | .areaNotFound n => "Area not found: " ++ n
  | .unexpected r => "Unexpected result from AppleScript: " ++ r

/-- The spec's AlreadyInTerminalState error kind: completing an already
completed task, or canceling an already canceled or completed task. -/
def ThingsError.isTerminalState : ThingsError → Bool
  | .alreadyCompleted _ => true
  | .alreadyCanceled _ => true
  | .alreadyCompletedCancel _ => true
  | _ => false

/-- The catch block of `executeAppleScript` (`src/applescript.ts`,
lines 85–103): known "not running / not found" substrings normalize to
`Things3NotAccessibleError`, anything else becomes a generic
`AppleScriptError` wrapping the message. -/
def classifyExecError (m : String) : ThingsError :=
  if hasSubS m "application isn't running" || hasSubS m "application is not running" ||
      hasSubS m "Can't get application" || hasSubS m "not found" then
    .notAccessible "Things 3 is not running or not accessible"
  else
    .scriptFailed ("AppleScript execution failed: " ++ m)

/-- An abstract bridge transport: the response text of a dispatched script, or
the error message of a failed execution. -/
def Bridge : Type := Script → Except String String

/-- The `isThings3Accessible`: run the probe and compare the trimmed reply with
`"true"`; any execution failure counts as not accessible. -/
def runProbe (exec : Bridge) : Bool :=
  match exec .probe with
  | .ok r => jsTrim r == "true"
  | .error _ => false

/-- The error `verifyThings3Access` throws when the probe fails. -/
def accessErr : ThingsError :=
  .notAccessible "Things 3 is not running. Please open Things 3 and try again."

/-- The `getListFilterScript` from `src/things.ts` (lines 127–149): a falsy list
name (absent or the empty string) selects all tasks; otherwise the lowercased
name selects one of the four built-in list views, and anything else is a
validation error (modelled as `Except`, for the `throw`). -/
def getListFilterScript (listName : Option String) : Except ThingsError String :=
  match listName with
  | none => .ok "set theTasks to to dos"
  | some n =>
    if n == "" then .ok "set theTasks to to dos"
    else
      let normalizedList := jsToLower n
      if normalizedList == "today" then .ok "set theTasks to to dos of list \"Today\""
      else if normalizedList == "upcoming" then .ok "set theTasks to to dos of list \"Upcoming\""
      else if normalizedList == "anytime" then .ok "set theTasks to to dos of list \"Anytime\""
      else if normalizedList == "someday" then .ok "set theTasks to to dos of list \"Someday\""
      else .error (.unknownList n)

/-- The `listTasks` from `src/things.ts` (lines 33–122): verify access, build the
retrieval script (the list selector may throw), execute it, parse, filter.
Returns the scripts dispatched in order together with the outcome. -/
def listTasksRun (exec : Bridge) (nd : String → String) (options : ListOptions) :
    List Script × Except ThingsError (List Things3Task) :=
  if runProbe exec then
    match getListFilterScript options.list with
    | .error e => ([.probe], .error e)
    | .ok sel =>
      match exec (.listRetrieval sel) with
      | .error m => ([.probe, .listRetrieval sel], .error (classifyExecError m))
      | .ok raw =>
        ([.probe, .listRetrieval sel], .ok (filterTasks (parseAppleScriptTaskList nd raw) options))
  else ([.probe], .error accessErr)

/-- The `AddTaskOptions` interface from `src/things.ts`. -/
structure AddTaskOptions where
  notes : Option String := none
  due : Option String := none
  tags : Option String := none
  project : Option String := none
  area : Option String := none
deriving DecidableEq, Repr

/-- The optional clauses `addTask` appends to the creation script, in source
order (notes, due date, project, area, then one block per comma-separated
tag; the tag list is trimmed but not filtered for empty entries). -/
def buildTaskClauses (o : AddTaskOptions) : List TaskClause :=
  let c1 : List TaskClause := if truthyOpt o.notes then [.notesClause (escapeS (o.notes.getD ""))] else []
  let c2 := c1 ++ (if truthyOpt o.due then [.dueClause (o.due.getD "")] else [])
  let c3 := c2 ++ (if truthyOpt o.project then [.projectClause (escapeS (o.project.getD ""))] else [])
  let c4 := c3 ++ (if truthyOpt o.area then [.areaClause (escapeS (o.area.getD ""))] else [])
  c4 ++ (if truthyOpt o.tags then
          ((jsSplitOn (o.tags.getD "") ",").map jsTrim).map (fun t => .tagClause (escapeS t))
        else [])

/-- The `addTask` from `src/things.ts` (lines 291–379): verify access, validate
the due date if provided, then dispatch the creation script.  Note there is
no validation of the task name. -/
def addTaskRun (exec : Bridge) (name : String) (options : AddTaskOptions) :
    List Script × Except ThingsError String :=
  if runProbe exec then
    if truthyOpt options.due && !isValidDateFormat (options.due.getD "") then
      ([.probe], .error (.invalidDate (options.due.getD "")))
    else
      let script := Script.createTask (escapeS name) (buildTaskClauses options)
      match exec script with
      | .error m => ([.probe, script], .error (classifyExecError m))
      | .ok r => ([.probe, script], .ok (jsTrim r))
  else ([.probe], .error accessErr)

/-- Last-wins lookup into the `fields` record object built while parsing one
`MULTIPLE:` candidate (`fields[key] = value` overwrites). -/
def lastAssoc (l : List (String × String)) (k : String) : Option String :=
  l.foldl (fun acc p => if p.1 == k then some p.2 else acc) none

/-- One line of the ambiguous-match enumeration (`errorMsg += ...`,
lines 498–505 of `src/things.ts`): index, name, status, and project/area when
present and non-empty.  Absent `NAME`/`STATUS` render as JavaScript's
`"undefined"`. -/
def candidateLine (n : Nat) (taskData : String) : String :=
  let fields := (jsSplitOn taskData "|").filterMap splitFirstColon
  let get := lastAssoc fields
  "  " ++ toString n ++ ". " ++ (get "NAME").getD "undefined" ++
    " (Status: " ++ (get "STATUS").getD "undefined" ++
    (match get "PROJECT" with
     | some p => if truthyS p then ", Project: " ++ p else ""
     | none => "") ++
    (match get "AREA" with
     | some a => if truthyS a then ", Area: " ++ a else ""
     | none => "") ++ ")\n"

/-- The candidate records of a `MULTIPLE:` payload: split on `||` and drop
whitespace-only entries. -/
def multipleCandidates (data : String) : List String :=
  (jsSplitOn data "||").filter (fun t => jsTrim t != "")

/-- The full ambiguous-match error message built from a `MULTIPLE:` payload
(lines 480–509 of `src/things.ts`; the identical code is duplicated in
`editTask` and `cancelTask`). -/
def multipleErrorMsg (taskName data : String) : String :=
  let tasks := multipleCandidates data
  "Multiple tasks found with name \"" ++ taskName ++ "\":\n" ++
    String.join (tasks.enum.map (fun p => candidateLine (p.1 + 1) p.2)) ++
    "\nPlease be more specific or use unique task names."

/-- The sentinel dispatch of `completeTask` on the trimmed script reply
(lines 470–525 of `src/things.ts`). -/
def completeDispatch (taskName trimmed : String) : Except ThingsError String :=
  if jsStartsWith trimmed "NOT_FOUND:" then
    .error (.notFound (jsDrop trimmed ("NOT_FOUND:" : String).length))
  else if jsStartsWith trimmed "MULTIPLE:" then
    .error (.ambiguous (multipleErrorMsg taskName (jsDrop trimmed ("MULTIPLE:" : String).length)))
  else if jsStartsWith trimmed "ALREADY_COMPLETED:" then
    .error (.alreadyCompleted (jsDrop trimmed ("ALREADY_COMPLETED:" : String).length))
  else if jsStartsWith trimmed "COMPLETED:" then
    .ok (jsDrop trimmed ("COMPLETED:" : String).length)
  else .error (.unexpected trimmed)

/-- The `completeTask` from `src/things.ts` (lines 413–525): verify access,
dispatch the single lookup-and-complete script, dispatch on its reply. -/
def completeTaskRun (exec : Bridge) (taskName : String) :
    List Script × Except ThingsError String :=
  if runProbe exec then
    let script := Script.completeScript (escapeS taskName)
    match exec script with
    | .error m => ([.probe, script], .error (classifyExecError m))
    | .ok r => ([.probe, script], completeDispatch taskName (jsTrim r))
  else ([.probe], .error accessErr)

/-- The sentinel dispatch of `cancelTask` on the trimmed script reply
(lines 850–913 of `src/things.ts`). -/
def cancelDispatch (taskName trimmed : String) : Except ThingsError String :=
  if jsStartsWith trimmed "NOT_FOUND:" then
    .error (.notFound (jsDrop trimmed ("NOT_FOUND:" : String).length))
  else if jsStartsWith trimmed "MULTIPLE:" then
    .error (.ambiguous (multipleErrorMsg taskName (jsDrop trimmed ("MULTIPLE:" : String).length)))
  else if jsStartsWith trimmed "ALREADY_CANCELED:" then
    .error (.alreadyCanceled (jsDrop trimmed ("ALREADY_CANCELED:" : String).length))
  else if jsStartsWith trimmed "ALREADY_COMPLETED:" then
    .error (.alreadyCompletedCancel (jsDrop trimmed ("ALREADY_COMPLETED:" : String).length))
  else if jsStartsWith trimmed "CANCELED:" then
    .ok (jsDrop trimmed ("CANCELED:" : String).length)
  else .error (.unexpected trimmed)

/-- The `cancelTask` from `src/things.ts` (lines 788–913). -/
def cancelTaskRun (exec : Bridge) (taskName : String) :
    List Script × Except ThingsError String :=
  if runProbe exec then
    let script := Script.cancelScript (escapeS taskName)
    match exec script with
    | .error m => ([.probe, script], .error (classifyExecError m))
    | .ok r => ([.probe, script], cancelDispatch taskName (jsTrim r))
  else ([.probe], .error accessErr)

/-- The `EditTaskOptions` interface from `src/things.ts`: the updatable
fields of an edit request. -/
structure EditTaskOptions where
  name : Option String := none
  notes : Option String := none
  due : Option String := none
  tags : Option String := none
  project : Option String := none
  area : Option String := none
deriving DecidableEq, Repr

/-- The `hasChanges` precheck of `editTask` (lines 555–561): every updatable
field is compared against `undefined`, so an empty string counts as a
change. -/
def hasChangesB (o : EditTaskOptions) : Bool :=
  o.name.isSome || o.notes.isSome || o.due.isSome || o.tags.isSome ||
    o.project.isSome || o.area.isSome

/-- The update clauses and change summaries `editTask` accumulates
(lines 660–752): `name`, `due`, `project`, `area` are emitted only when
truthy (an empty string emits nothing), while `notes` and `tags` are emitted
whenever not `undefined` (an empty string clears them). -/
def buildEditClauses (o : EditTaskOptions) : List EditClause × List String :=
  let s0 : List EditClause × List String := ([], [])
  let s1 :=
    if truthyOpt o.name then
      (s0.1 ++ [.setName (escapeS (o.name.getD ""))],
       s0.2 ++ ["name changed to \"" ++ o.name.getD "" ++ "\""])
    else s0
  let s2 :=
    match o.notes with
    | some n => (s1.1 ++ [.setNotes (escapeS n)], s1.2 ++ ["notes updated"])
    | none => s1
  let s3 :=
    if truthyOpt o.due then
      (s2.1 ++ [.setDue (o.due.getD "")], s2.2 ++ ["due date set to " ++ o.due.getD ""])
    else s2
  let s4 :=
    match o.tags with
    | some t =>
      let tagList := ((jsSplitOn t ",").map jsTrim).filter (fun x => x != "")
      let withEnsure := s3.1 ++ tagList.map (fun tg => .ensureTag (escapeS tg))
      if tagList.isEmpty then
        (withEnsure ++ [.clearTags], s3.2 ++ ["tags cleared"])
      else
        (withEnsure ++ [.setTagNames (tagList.map escapeS)], s3.2 ++ ["tags set to: " ++ t])
    | none => s3
  let s5 :=
    if truthyOpt o.project then
      (s4.1 ++ [.moveToProject (escapeS (o.project.getD ""))],
       s4.2 ++ ["moved to project \"" ++ o.project.getD "" ++ "\""])
    else s4
  if truthyOpt o.area then
    (s5.1 ++ [.setAreaOf (escapeS (o.area.getD ""))],
     s5.2 ++ ["moved to area \"" ++ o.area.getD "" ++ "\""])
  else s5

/-- The catch block at the end of `editTask` (lines 764–778): the caught
bridge error message is scanned for the embedded lookup tags. -/
def editUpdateErr (m : String) : ThingsError :=
  let e := classifyExecError m
  let em := renderErr e
  if hasSubS em "PROJECT_NOT_FOUND:" then
    .projectNotFound ((jsSplitOn em "PROJECT_NOT_FOUND:").getD 1 "")
  else if hasSubS em "AREA_NOT_FOUND:" then
    .areaNotFound ((jsSplitOn em "AREA_NOT_FOUND:").getD 1 "")
  else e

/-- The `editTask` from `src/things.ts` (lines 547–779): verify access, require
at least one updatable field, validate the due date, resolve the task name
through the find script, then dispatch the update script. -/
def editTaskRun (exec : Bridge) (taskName : String) (options : EditTaskOptions) :
    List Script × Except ThingsError String :=
  if runProbe exec then
    if !hasChangesB options then ([.probe], .error .noChanges)
    else if truthyOpt options.due && !isValidDateFormat (options.due.getD "") then
      ([.probe], .error (.invalidDate (options.due.getD "")))
    else
      let findScript := Script.findTask (escapeS taskName)
      match exec findScript with
      | .error m => ([.probe, findScript], .error (classifyExecError m))
      | .ok r =>
        let trimmed := jsTrim r
        if jsStartsWith trimmed "NOT_FOUND:" then
          ([.probe, findScript], .error (.notFound (jsDrop trimmed ("NOT_FOUND:" : String).length)))
        else if jsStartsWith trimmed "MULTIPLE:" then
          ([.probe, findScript],
           .error (.ambiguous (multipleErrorMsg taskName (jsDrop trimmed ("MULTIPLE:" : String).length))))
        else
          let taskId := jsDrop trimmed ("FOUND:" : String).length
          let built := buildEditClauses options
          let updateScript := Script.updateTask taskId built.1
          match exec updateScript with
          | .error m => ([.probe, findScript, updateScript], .error (editUpdateErr m))
          | .ok r2 =>
            ([.probe, findScript, updateScript],
             .ok ("Task \"" ++ jsTrim r2 ++ "\" updated: " ++ joinSep ", " built.2))
  else ([.probe], .error accessErr)

/-- The `AddProjectOptions` interface from `src/things.ts`. -/
structure AddProjectOptions where
  area : Option String := none
  notes : Option String := none
  deadline : Option String := none
deriving DecidableEq, Repr

/-- The optional clauses `addProject` appends to the creation script. -/
def buildProjClauses (o : AddProjectOptions) : List ProjClause :=
  let c1 : List ProjClause := if truthyOpt o.notes then [.notesClause (escapeS (o.notes.getD ""))] else []
  let c2 := c1 ++ (if truthyOpt o.deadline then [.deadlineClause (o.deadline.getD "")] else [])
  c2 ++ (if truthyOpt o.area then [.areaClause (escapeS (o.area.getD ""))] else [])

/-- The `addProject` from `src/things.ts` (lines 931–1003): verify access,
reject an empty or whitespace-only project name, validate the deadline, then
dispatch the creation script. -/
def addProjectRun (exec : Bridge) (name : String) (options : AddProjectOptions) :
    List Script × Except ThingsError String :=
  if runProbe exec then
    if name == "" || jsTrim name == "" then ([.probe], .error (.emptyName "Project"))
    else if truthyOpt options.deadline && !isValidDateFormat (options.deadline.getD "") then
      ([.probe], .error (.invalidDate (options.deadline.getD "")))
    else
      let script := Script.createProject (escapeS name) (buildProjClauses options)
      match exec script with
      | .error m => ([.probe, script], .error (classifyExecError m))
      | .ok r => ([.probe, script], .ok (jsTrim r))
  else ([.probe], .error accessErr)

/-- The `addArea` from `src/things.ts` (lines 1011–1031). -/
def addAreaRun (exec : Bridge) (name : String) :
    List Script × Except ThingsError String :=
  if runProbe exec then
    if name == "" || jsTrim name == "" then ([.probe], .error (.emptyName "Area"))
    else
      let script := Script.createArea (escapeS name)
      match exec script with
      | .error m => ([.probe, script], .error (classifyExecError m))
      | .ok r => ([.probe, script], .ok (jsTrim r))
  else ([.probe], .error accessErr)

/-- A to-do as held by the external Things 3 store, for giving semantics to
the embedded AppleScript bodies. -/
structure StoreTask where
  id : String
  name : String
  status : String
  project : Option String := none
  area : Option String := none
deriving DecidableEq, Repr

/-- The candidate description one `repeat` iteration of the `MULTIPLE:`
branch appends: `ID:…|NAME:…|STATUS:…`, then `|PROJECT:…` / `|AREA:…` when
present, then the `||` separator. -/
def encodeCandidate (t : StoreTask) : String :=
  "ID:" ++ t.id ++ "|NAME:" ++ t.name ++ "|STATUS:" ++ t.status ++
    (match t.project with | some p => "|PROJECT:" ++ p | none => "") ++
    (match t.area with | some a => "|AREA:" ++ a | none => "") ++ "||"

/-- Semantics of the AppleScript body `cancelTask` dispatches (lines 793–848
of `src/things.ts`): look up the to-dos whose name is the escaped name, and
branch on the match count and the unique match's status.  Returns the reply
text and the store after the script ran; the status is only assigned in the
final branch. -/
def cancelScriptSem (store : List StoreTask) (n : String) : String × List StoreTask :=
  match store.filter (fun t => t.name == n) with
  | [] => ("NOT_FOUND:" ++ n, store)
  | [t] =>
    if t.status == "canceled" then ("ALREADY_CANCELED:" ++ t.name, store)
    else if t.status == "completed" then ("ALREADY_COMPLETED:" ++ t.name, store)
    else ("CANCELED:" ++ t.name,
          store.map (fun u => if u.id == t.id then { u with status := "canceled" } else u))
  | ts => ("MULTIPLE:" ++ String.join (ts.map encodeCandidate), store)

/-- A bridge backed by a Things 3 store: the probe reports the app running,
and the cancel script behaves as `cancelScriptSem`. -/
def storeBridge (store : List StoreTask) : Bridge := fun s =>
  match s with
  | .probe => .ok "true"
  | .cancelScript n => .ok (cancelScriptSem store n).1
  | _ => .ok ""

/-- A bridge on which the probe reports the app running and every other
script returns an empty reply. -/
def allOkBridge : Bridge := fun s =>
  match s with
  | .probe => .ok "true"
  | _ => .ok ""

/-!
Spec-side definitions.  These follow the wording of the specification, to be
compared with the definitions transcribed from the source above.
-/

/-- The spec's contract for one optional field filter: a supplied non-empty
filter matches when its lowercased value is a substring of the lowercased
field value; an absent field never matches a non-empty filter; an absent or
empty filter imposes no constraint. -/
def specFieldPass (filt field : Option String) : Bool :=
  match filt with
  | none => true
  | some f =>
    if f == "" then true
    else
      match field with
      | some v => hasSubS (jsToLower v) (jsToLower f)
      | none => false

/-- The spec's contract for the tag filter: some tag of the task contains the
lowercased filter value. -/
def specTagPass (filt : Option String) (tags : Option (List String)) : Bool :=
  match filt with
  | none => true
  | some f =>
    if f == "" then true
    else
      match tags with
      | some ts => ts.any (fun t => hasSubS (jsToLower t) (jsToLower f))
      | none => false

/-- The spec's filter-engine contract: the three optional filters combine by
logical AND. -/
def specPass (o : ListOptions) (t : Things3Task) : Bool :=
  specFieldPass o.project t.project && specFieldPass o.area t.area &&
    specTagPass o.tag t.tags

/-- Modelled from the spec: the Gregorian leap-year rule ("calendar
validity"), phrased as in the usual calendar definition. -/
def specLeap (y : Nat) : Prop :=
  y % 4 = 0 ∧ (y % 100 ≠ 0 ∨ y % 400 = 0)

instance (y : Nat) : Decidable (specLeap y) := by
  unfold specLeap; infer_instance

/-- Modelled from the spec: the length of each month of a real calendar. -/
def specMonthLength (y m : Nat) : Nat :=
  match m with
  | 1 => 31 | 2 => if specLeap y then 29 else 28 | 3 => 31 | 4 => 30
  | 5 => 31 | 6 => 30 | 7 => 31 | 8 => 31 | 9 => 30 | 10 => 31
  | 11 => 30 | 12 => 31 | _ => 0

/-- Modelled from the spec: `y-m-d` is a real calendar date. -/
def specRealDate (y m d : Nat) : Prop :=
  1 ≤ m ∧ m ≤ 12 ∧ 1 ≤ d ∧ d ≤ specMonthLength y m

/-- Modelled from the spec: the `YYYY-MM-DD` shape — ten characters, digits
in the year/month/day positions and dashes at positions 4 and 7. -/
def specDateShape (s : String) : Prop :=
  s.data.length = 10 ∧
    (∀ i ∈ [0, 1, 2, 3, 5, 6, 8, 9], (s.data.getD i ' ').isDigit = true) ∧
    s.data.getD 4 ' ' = '-' ∧ s.data.getD 7 ' ' = '-'

/-!
Concrete fixtures used by the closed instances below.
-/

/-- The spec's filter-composition example, first task. -/
def taskWeb : Things3Task := { id := "1", name := "a", project := some "Website Redesign" }

/-- The spec's filter-composition example, second task. -/
def taskBackend : Things3Task := { id := "2", name := "b", project := some "Backend" }

/-- The spec's filter-composition example, third task (no project). -/
def taskNoProj : Things3Task := { id := "3", name := "c" }

/-- Three raw records of which exactly the second is malformed (no `NAME`). -/
def threeRecords : String :=
  "ID:1||NAME:Alpha||STATUS:open||TASK_END\nID:2||STATUS:open||TASK_END\nID:3||NAME:Gamma||TASK_END\n"

/-- The `MULTIPLE:` payload of the spec's disambiguation example. -/
def multiData : String :=
  "ID:1|NAME:Meeting|STATUS:open|PROJECT:Q1||ID:2|NAME:Meeting|STATUS:open|AREA:Work||"

/-- A lookup reply carrying the spec's disambiguation example. -/
def multiResp : String := "MULTIPLE:" ++ multiData

/-- A bridge whose name lookups answer with the two-candidate `MULTIPLE:`
reply. -/
def multiBridge : Bridge := fun s =>
  match s with
  | .probe => .ok "true"
  | .completeScript _ => .ok multiResp
  | .findTask _ => .ok multiResp
  | _ => .ok ""

/-- A bridge resolving any find script to a unique task id `tid1` and
answering the update script with the task name `T`. -/
def editBridge : Bridge := fun s =>
  match s with
  | .probe => .ok "true"
  | .findTask _ => .ok "FOUND:tid1"
  | .updateTask _ _ => .ok "T"
  | _ => .ok ""

/-- A store holding a single, already completed task. -/
def demoStore : List StoreTask :=
  [{ id := "7", name := "Ship report", status := "completed" }]

/-!
Theorems.
-/

theorem replaceChar_append (c : Char) (rep : List Char) (a b : List Char) :
    replaceChar c rep (a ++ b) = replaceChar c rep a ++ replaceChar c rep b := by
  induction a with
  | nil => rfl
  | cons x xs ih => simp [replaceChar, ih]

theorem escapeAppleScript_cons (x : Char) (xs : List Char) :
    escapeAppleScript (x :: xs) = escChar x ++ escapeAppleScript xs := by
  show escapeAppleScript ([x] ++ xs) = _
  simp only [escapeAppleScript, replaceChar_append]
  congr 1
  by_cases h1 : x = '\\'
  · subst h1; rfl
  · by_cases h2 : x = '"'
    · subst h2; rfl
    · by_cases h3 : x = '\n'
      · subst h3; rfl
      · by_cases h4 : x = '\r'
        · subst h4; rfl
        · simp [replaceChar, escChar, h1, h2, h3, h4]

/-- C1: `escapeAppleScript` applies its replacements in the order backslash,
double quote, newline, carriage return; composed in that order the four
global passes escape each character exactly once (they equal the single-pass
table `escChar`, so no double escaping occurs), and the input `He said "hi"\`
(double quotes and a trailing backslash) escapes exactly to
`He said \"hi\"\\`. -/
theorem escape_order_single_pass_and_example :
    (∀ s : List Char, escapeAppleScript s = s.flatMap escChar) ∧
    escapeS "He said \"hi\"\\" = "He said \\\"hi\\\"\\\\" := by
  constructor
  · intro s
    induction s with
    | nil => rfl
    | cons x xs ih => rw [escapeAppleScript_cons, ih]; rfl
  · rfl

/-- C2 counterexample: the list operation invoked with the empty-string list
name — whose lowercase form is not among the four recognized views — raises
no validation error at all: it silently dispatches the all-tasks retrieval
script and returns all (here zero) tasks. -/
theorem listTasks_empty_name_silent_fallback :
    listTasksRun allOkBridge (fun s => s) { list := some "" } =
      ([.probe, .listRetrieval "set theTasks to to dos"], .ok []) ∧
    jsToLower "" ∉ ["today", "upcoming", "anytime", "someday"] :=
  ⟨rfl, by decide⟩

/-- C2 (amended): for every *non-empty* list-view name whose lowercase form
is not one of `today`, `upcoming`, `anytime`, `someday`, the list operation
fails with the unknown-list validation error and dispatches no task-retrieval
script to Things 3 (the only script sent beforehand is the accessibility
probe, addressed to System Events); an absent or empty list name instead
falls back to retrieving all tasks. -/
theorem listTasks_unknown_list_validates (exec : Bridge) (nd : String → String)
    (l : String) (p a g : Option String)
    (hne : l ≠ "") (hl : jsToLower l ∉ ["today", "upcoming", "anytime", "someday"])
    (hp : exec .probe = .ok "true") :
    listTasksRun exec nd { list := some l, project := p, area := a, tag := g } =
      ([.probe], .error (.unknownList l)) ∧
    ∀ s ∈ (listTasksRun exec nd { list := some l, project := p, area := a, tag := g }).1,
      Script.target s = .systemEvents := by
  have hpr : runProbe exec = true := by rw [runProbe, hp]; rfl
  simp only [List.mem_cons, List.not_mem_nil, or_false, not_or] at hl
  obtain ⟨h1, h2, h3, h4⟩ := hl
  have hsel : getListFilterScript (some l) = .error (.unknownList l) := by
    simp [getListFilterScript, beq_eq_false_iff_ne, hne, h1, h2, h3, h4]
  have hrun : listTasksRun exec nd { list := some l, project := p, area := a, tag := g } =
      ([.probe], .error (.unknownList l)) := by
    simp [listTasksRun, hpr, hsel]
  refine ⟨hrun, ?_⟩
  rw [hrun]
  intro s hs
  simp only [List.mem_cons, List.not_mem_nil, or_false] at hs
  subst hs
  rfl

/-- C2 witness: the amended theorem at the concrete unknown list name
`inbox`. -/
theorem listTasks_unknown_list_validates_witness :
    listTasksRun allOkBridge (fun s => s) { list := some "inbox" } =
      ([.probe], .error (.unknownList "inbox")) ∧
    ∀ s ∈ (listTasksRun allOkBridge (fun s => s) { list := some "inbox" }).1,
      Script.target s = .systemEvents :=
  listTasks_unknown_list_validates allOkBridge (fun s => s) "inbox" none none none
    (by decide) (by decide) rfl

/-- C3: an edit request with none of the updatable fields of
`EditTaskOptions` set is refused with the no-changes validation error, and no
script is dispatched to Things 3 (the only dispatched script is the
accessibility probe, addressed to System Events). -/
theorem editTask_noop_validates (exec : Bridge) (name : String)
    (hp : exec .probe = .ok "true") :
    editTaskRun exec name {} = ([.probe], .error .noChanges) ∧
    ∀ s ∈ (editTaskRun exec name {}).1, Script.target s = .systemEvents := by
  have hpr : runProbe exec = true := by rw [runProbe, hp]; rfl
  have hrun : editTaskRun exec name {} = ([.probe], .error .noChanges) := by
    simp [editTaskRun, hpr, hasChangesB]
  refine ⟨hrun, ?_⟩
  rw [hrun]
  intro s hs
  simp only [List.mem_cons, List.not_mem_nil, or_false] at hs
  subst hs
  rfl

/-- C3 witness: the theorem at a concrete bridge and task name. -/
theorem editTask_noop_validates_witness :
    editTaskRun allOkBridge "Write report" {} = ([.probe], .error .noChanges) ∧
    ∀ s ∈ (editTaskRun allOkBridge "Write report" {}).1,
      Script.target s = .systemEvents :=
  editTask_noop_validates allOkBridge "Write report" rfl

/-- C9: `addTask` performs no name validation at all — invoked with the empty
(or whitespace-only) name it dispatches the task-creation script to Things 3
and reports success, while `addProject` and `addArea` reject the same input
with the empty-name validation error before dispatching any script to
Things 3. -/
theorem addTask_empty_name_not_validated :
    addTaskRun allOkBridge "" {} = ([.probe, .createTask "" []], .ok "") ∧
    addTaskRun allOkBridge "   " {} = ([.probe, .createTask "   " []], .ok "") ∧
    addProjectRun allOkBridge "" {} = ([.probe], .error (.emptyName "Project")) ∧
    addProjectRun allOkBridge "   " {} = ([.probe], .error (.emptyName "Project")) ∧
    addAreaRun allOkBridge "" = ([.probe], .error (.emptyName "Area")) :=
  ⟨rfl, rfl, rfl, rfl, rfl⟩

/-- C10: the edit operation treats empty-string values asymmetrically.  Every
single empty-string field satisfies the `hasChanges` precheck; `notes := ""`
emits a clause clearing the notes and `tags := ""` emits a clause clearing
all tags, while empty `name`, `due`, `project`, `area` emit no clause at all —
so an edit whose only supplied field is an empty-string name dispatches an
update script with no clauses and reports success with an empty change
list. -/
theorem editTask_empty_string_asymmetry :
    hasChangesB { name := some "" } = true ∧
    hasChangesB { notes := some "" } = true ∧
    hasChangesB { due := some "" } = true ∧
    hasChangesB { tags := some "" } = true ∧
    hasChangesB { project := some "" } = true ∧
    hasChangesB { area := some "" } = true ∧
    buildEditClauses { notes := some "" } = ([.setNotes ""], ["notes updated"]) ∧
    buildEditClauses { tags := some "" } = ([.clearTags], ["tags cleared"]) ∧
    buildEditClauses { name := some "" } = ([], []) ∧
    buildEditClauses { due := some "" } = ([], []) ∧
    buildEditClauses { project := some "" } = ([], []) ∧
    buildEditClauses { area := some "" } = ([], []) ∧
    editTaskRun editBridge "T" { name := some "" } =
      ([.probe, .findTask "T", .updateTask "tid1" []], .ok "Task \"T\" updated: ") :=
  ⟨rfl, rfl, rfl, rfl, rfl, rfl, rfl, rfl, rfl, rfl, rfl, rfl, rfl⟩

/-- C6: whenever a mutation-by-name lookup (complete, or the find step of
edit) answers with a `MULTIPLE:` reply, the operation fails with the
ambiguous-name error whose message is the candidate enumeration built by
`multipleErrorMsg` — one line per candidate with its name, status and, when
present, its project or area; on the spec's two-candidate payload the message
enumerates exactly the two candidates with their respective project and
area. -/
theorem ambiguous_name_enumeration :
    (∀ (exec : Bridge) (name data resp : String),
        exec .probe = .ok "true" →
        exec (.completeScript (escapeS name)) = .ok resp →
        jsTrim resp = "MULTIPLE:" ++ data →
        completeTaskRun exec name =
          ([.probe, .completeScript (escapeS name)],
           .error (.ambiguous (multipleErrorMsg name data)))) ∧
    (∀ (exec : Bridge) (name data resp : String) (opts : EditTaskOptions),
        exec .probe = .ok "true" →
        hasChangesB opts = true →
        (truthyOpt opts.due && !isValidDateFormat (opts.due.getD "")) = false →
        exec (.findTask (escapeS name)) = .ok resp →
        jsTrim resp = "MULTIPLE:" ++ data →
        editTaskRun exec name opts =
          ([.probe, .findTask (escapeS name)],
           .error (.ambiguous (multipleErrorMsg name data)))) ∧
    multipleErrorMsg "Meeting" multiData =
      "Multiple tasks found with name \"Meeting\":\n  1. Meeting (Status: open, Project: Q1)\n  2. Meeting (Status: open, Area: Work)\n\nPlease be more specific or use unique task names." ∧
    (multipleCandidates multiData).length = 2 := by
  refine ⟨?_, ?_, rfl, rfl⟩
  · intro exec name data resp hp hr htrim
    have hpr : runProbe exec = true := by rw [runProbe, hp]; rfl
    have h1 : jsStartsWith ("MULTIPLE:" ++ data) "NOT_FOUND:" = false := rfl
    have h2 : jsStartsWith ("MULTIPLE:" ++ data) "MULTIPLE:" = true := rfl
    have h3 : jsDrop ("MULTIPLE:" ++ data) ("MULTIPLE:" : String).length = data := rfl
    simp [completeTaskRun, hpr, hr, completeDispatch, htrim, h1, h2, h3]
  · intro exec name data resp opts hp hch hdue hr htrim
    have hpr : runProbe exec = true := by rw [runProbe, hp]; rfl
    have h1 : jsStartsWith ("MULTIPLE:" ++ data) "NOT_FOUND:" = false := rfl
    have h2 : jsStartsWith ("MULTIPLE:" ++ data) "MULTIPLE:" = true := rfl
    have h3 : jsDrop ("MULTIPLE:" ++ data) ("MULTIPLE:" : String).length = data := rfl
    simp [editTaskRun, hpr, hch, hdue, hr, htrim, h1, h2, h3]

/-- C6 witness: the complete operation against the bridge answering the
spec's two-candidate `MULTIPLE:` payload. -/
theorem ambiguous_name_enumeration_witness :
    completeTaskRun multiBridge "Meeting" =
      ([.probe, .completeScript (escapeS "Meeting")],
       .error (.ambiguous (multipleErrorMsg "Meeting" multiData))) :=
  ambiguous_name_enumeration.1 multiBridge "Meeting" multiData multiResp rfl rfl rfl

/-- C8: when the cancel lookup finds a unique match that is already
completed, the embedded script replies `ALREADY_COMPLETED:<name>` and leaves
the store unchanged (no status change is issued), and the operation fails
with the AlreadyInTerminalState error naming that task — rendered as the
dedicated already-completed message, not the generic unexpected-result
failure. -/
theorem cancel_already_completed_terminal (store : List StoreTask) (name : String)
    (t : StoreTask)
    (hm : store.filter (fun u => u.name == escapeS name) = [t])
    (hst : t.status = "completed")
    (htr : jsTrim ("ALREADY_COMPLETED:" ++ t.name) = "ALREADY_COMPLETED:" ++ t.name) :
    cancelScriptSem store (escapeS name) = ("ALREADY_COMPLETED:" ++ t.name, store) ∧
    cancelTaskRun (storeBridge store) name =
      ([.probe, .cancelScript (escapeS name)],
       .error (.alreadyCompletedCancel t.name)) ∧
    ThingsError.isTerminalState (.alreadyCompletedCancel t.name) = true ∧
    renderErr (.alreadyCompletedCancel t.name) =
      "Task \"" ++ t.name ++ "\" is already completed and cannot be canceled" := by
  have hcc : (("completed" : String) == "canceled") = false := rfl
  have hco : (("completed" : String) == "completed") = true := rfl
  have hsem : cancelScriptSem store (escapeS name) = ("ALREADY_COMPLETED:" ++ t.name, store) := by
    simp [cancelScriptSem, hm, hst, hcc, hco]
  refine ⟨hsem, ?_, rfl, rfl⟩
  have h1 : jsStartsWith ("ALREADY_COMPLETED:" ++ t.name) "NOT_FOUND:" = false := rfl
  have h2 : jsStartsWith ("ALREADY_COMPLETED:" ++ t.name) "MULTIPLE:" = false := rfl
  have h3 : jsStartsWith ("ALREADY_COMPLETED:" ++ t.name) "ALREADY_CANCELED:" = false := rfl
  have h4 : jsStartsWith ("ALREADY_COMPLETED:" ++ t.name) "ALREADY_COMPLETED:" = true := rfl
  have h5 : jsDrop ("ALREADY_COMPLETED:" ++ t.name) ("ALREADY_COMPLETED:" : String).length = t.name := rfl
  have hexec : storeBridge store (.cancelScript (escapeS name)) =
      .ok ("ALREADY_COMPLETED:" ++ t.name) := by
    simp [storeBridge, hsem]
  have hpr : runProbe (storeBridge store) = true := rfl
  simp [cancelTaskRun, hpr, hexec, cancelDispatch, htr, h1, h2, h3, h4, h5]

/-- C8 witness: the theorem at a one-task store whose unique match is already
completed. -/
theorem cancel_already_completed_terminal_witness :
    cancelScriptSem demoStore (escapeS "Ship report") =
      ("ALREADY_COMPLETED:" ++ "Ship report", demoStore) ∧
    cancelTaskRun (storeBridge demoStore) "Ship report" =
      ([.probe, .cancelScript (escapeS "Ship report")],
       .error (.alreadyCompletedCancel "Ship report")) ∧
    ThingsError.isTerminalState (.alreadyCompletedCancel "Ship report") = true ∧
    renderErr (.alreadyCompletedCancel "Ship report") =
      "Task \"" ++ "Ship report" ++ "\" is already completed and cannot be canceled" :=
  cancel_already_completed_terminal demoStore "Ship report"
    { id := "7", name := "Ship report", status := "completed" } rfl rfl rfl

theorem filter_pair (l : List Things3Task) (P Q : Things3Task → Bool) :
    (l.filter P).filter Q = l.filter (fun x => P x && Q x) := by
  induction l with
  | nil => rfl
  | cons x xs ih =>
    by_cases hP : P x <;> by_cases hQ : Q x <;>
      simp [List.filter_cons, hP, hQ, ih]

theorem specFieldPass_eval (fo field : Option String) :
    specFieldPass fo field =
      (!truthyOpt fo || fieldIncludes field (jsToLower (fo.getD ""))) := by
  rcases fo with _ | f
  · rfl
  · by_cases hf : f = ""
    · subst hf; rfl
    · have hf' : (f == "") = false := by simpa using hf
      simp only [specFieldPass, truthyOpt, hf', fieldIncludes, Bool.false_eq_true,
        if_false, bne_iff_ne, ne_eq, Bool.not_eq_true]
      simp [hf]

theorem specTagPass_eval (fo : Option String) (tags : Option (List String)) :
    specTagPass fo tags =
      (!truthyOpt fo || tagsInclude tags (jsToLower (fo.getD ""))) := by
  rcases fo with _ | f
  · rfl
  · by_cases hf : f = ""
    · subst hf; rfl
    · have hf' : (f == "") = false := by simpa using hf
      simp only [specTagPass, truthyOpt, hf', tagsInclude, Bool.false_eq_true,
        if_false, bne_iff_ne, ne_eq, Bool.not_eq_true]
      simp [hf]

theorem cond_filter_eq (b : Bool) (P : Things3Task → Bool) (l : List Things3Task) :
    (if b then l.filter P else l) = l.filter (fun x => !b || P x) := by
  cases b
  · simp
  · simp

theorem filterTasks_eq_spec_filter (ts : List Things3Task) (o : ListOptions) :
    filterTasks ts o = ts.filter (specPass o) := by
  simp only [filterTasks]
  rw [cond_filter_eq, cond_filter_eq, cond_filter_eq, filter_pair, filter_pair]
  refine List.filter_congr (fun x _ => ?_)
  simp only [specPass, specFieldPass_eval, specTagPass_eval]
  rw [Bool.and_assoc]

theorem countP_congr_of_eq {α : Type} {l : List α} {p q : α → Bool}
    (h : ∀ a ∈ l, p a = q a) : l.countP p = l.countP q := by
  rw [List.countP_eq_length_filter, List.countP_eq_length_filter, List.filter_congr h]

/-- C7: the filter engine returns exactly the tasks accepted by the spec's
contract — each supplied non-empty filter's lowercased value must be a
substring of the corresponding lowercased field, absent fields never match a
non-empty filter, the filters combine by AND, and with no filter supplied the
list is returned unchanged; on the spec's three-task example the filter
`project = "web"` keeps exactly the first task. -/
theorem filterTasks_spec :
    (∀ (ts : List Things3Task) (o : ListOptions),
        filterTasks ts o = ts.filter (specPass o)) ∧
    (∀ (ts : List Things3Task) (l : Option String),
        filterTasks ts { list := l } = ts) ∧
    filterTasks [taskWeb, taskBackend, taskNoProj] { project := some "web" } =
      [taskWeb] := by
  refine ⟨filterTasks_eq_spec_filter, ?_, rfl⟩
  intro ts l
  rfl

theorem applyField_id (nd : String → String) (p : PartialTask) (f : String) :
    truthyOpt (applyField nd p f).id = (truthyOpt p.id || fieldHasKey "ID" f) := by
  rcases hsp : splitFirstColon f with _ | ⟨k, v0⟩
  · simp [applyField, fieldHasKey, hsp]
  · cases hv : (jsTrim v0 == "") with
    | true =>
      have hbne : (jsTrim v0 != "") = false := by simp [bne, hv]
      simp only [applyField, fieldHasKey, hsp, hv, if_true, hbne, Bool.and_false,
        Bool.or_false]
    | false =>
      cases hk : (k == "ID") with
      | true =>
        have hkeq : k = "ID" := by simpa using hk
        subst hkeq
        simp only [applyField, fieldHasKey, hsp, hv, hk, Bool.false_eq_true, if_false,
          if_true, Bool.true_and, truthyOpt, bne, Bool.not_false]
        simp [bne, hv]
      | false =>
        simp only [applyField, fieldHasKey, hsp, hv, hk, Bool.false_eq_true, if_false,
          Bool.false_and, Bool.or_false]
        split_ifs <;> rfl

theorem applyField_name (nd : String → String) (p : PartialTask) (f : String) :
    truthyOpt (applyField nd p f).name = (truthyOpt p.name || fieldHasKey "NAME" f) := by
  rcases hsp : splitFirstColon f with _ | ⟨k, v0⟩
  · simp [applyField, fieldHasKey, hsp]
  · cases hv : (jsTrim v0 == "") with
    | true =>
      have hbne : (jsTrim v0 != "") = false := by simp [bne, hv]
      simp only [applyField, fieldHasKey, hsp, hv, if_true, hbne, Bool.and_false,
        Bool.or_false]
    | false =>
      cases hk : (k == "NAME") with
      | true =>
        have hkeq : k = "NAME" := by simpa using hk
        subst hkeq
        simp only [applyField, fieldHasKey, hsp, hv, hk, Bool.false_eq_true, if_false,
          if_true, Bool.true_and, truthyOpt, bne, Bool.not_false]
        simp [bne, hv]
      | false =>
        simp only [applyField, fieldHasKey, hsp, hv, hk, Bool.false_eq_true, if_false,
          Bool.false_and, Bool.or_false]
        split_ifs <;> rfl

theorem foldl_applyField_id (nd : String → String) (fs : List String) (p : PartialTask) :
    truthyOpt ((fs.foldl (applyField nd) p).id) =
      (truthyOpt p.id || fs.any (fieldHasKey "ID")) := by
  induction fs generalizing p with
  | nil => simp
  | cons f fs ih =>
    simp [List.foldl_cons, ih, applyField_id, List.any_cons, Bool.or_assoc]

theorem foldl_applyField_name (nd : String → String) (fs : List String) (p : PartialTask) :
    truthyOpt ((fs.foldl (applyField nd) p).name) =
      (truthyOpt p.name || fs.any (fieldHasKey "NAME")) := by
  induction fs generalizing p with
  | nil => simp
  | cons f fs ih =>
    simp [List.foldl_cons, ih, applyField_name, List.any_cons, Bool.or_assoc]

theorem parseRecord_isSome (nd : String → String) (ts : String) :
    (parseRecord nd ts).isSome = wellFormedRecord ts := by
  have hite : ∀ (c : Bool) (x : Things3Task), (if c then some x else none).isSome = c := by
    intro c x; cases c <;> simp
  simp only [parseRecord]
  rw [hite, foldl_applyField_id, foldl_applyField_name]
  simp [wellFormedRecord, initPartial, truthyOpt]

theorem foldl_push_filterMap (nd : String → String) (L : List String)
    (acc : List Things3Task) :
    L.foldl (pushRecord nd) acc = acc ++ L.filterMap (parseRecord nd) := by
  induction L generalizing acc with
  | nil => simp
  | cons x xs ih =>
    rcases hg : parseRecord nd x with _ | t
    · simp [List.foldl_cons, pushRecord, hg, ih, List.filterMap_cons]
    · simp [List.foldl_cons, pushRecord, hg, ih, List.filterMap_cons]

theorem ws_ne_T (c : Char) (h : wsB c = true) : ('T' == c) = false := by
  simp only [wsB, Bool.or_eq_true, beq_iff_eq] at h
  obtain (((h | h) | h) | h) := h <;> subst h <;> rfl

theorem splitGo_taskSep_allws (fuel : Nat) (s cur : List Char)
    (hs : ∀ c ∈ s, wsB c = true) (hc : ∀ c ∈ cur, wsB c = true) :
    ∀ piece ∈ splitGo ("TASK_END\n" : String).data fuel s cur, ∀ c ∈ piece, wsB c = true := by
  induction fuel generalizing s cur with
  | zero =>
    cases s with
    | nil =>
      intro piece hp
      simp only [splitGo, List.mem_singleton] at hp
      subst hp
      intro c hcm
      exact hc c (by simpa using hcm)
    | cons a rest =>
      intro piece hp
      simp only [splitGo, List.mem_singleton] at hp
      subst hp
      intro c hcm
      rcases List.mem_append.mp hcm with h | h
      · exact hc c (by simpa using h)
      · exact hs c h
  | succ fuel ih =>
    cases s with
    | nil =>
      intro piece hp
      simp only [splitGo, List.mem_singleton] at hp
      subst hp
      intro c hcm
      exact hc c (by simpa using hcm)
    | cons a rest =>
      have hT : startsL ("TASK_END\n" : String).data (a :: rest) = false := by
        show startsL ('T' :: ("ASK_END\n" : String).data) (a :: rest) = false
        simp [startsL, ws_ne_T a (hs a (by simp))]
      simp only [splitGo, hT, Bool.false_eq_true, if_false]
      exact ih rest (a :: cur)
        (fun c h => hs c (List.mem_cons_of_mem _ h))
        (fun c h => by
          rcases List.mem_cons.mp h with h | h
          · subst h; exact hs c (by simp)
          · exact hc c h)

theorem trim_empty_iff (s : String) : jsTrim s = "" ↔ ∀ c ∈ s.data, wsB c = true := by
  rcases s with ⟨l⟩
  simp only [jsTrim]
  constructor
  · intro h c hcl
    have h1 : (l.dropWhile wsB).reverse.dropWhile wsB = [] := by
      have h0 : ((l.dropWhile wsB).reverse.dropWhile wsB).reverse = [] := by
        simpa using congrArg String.data h
      simpa using congrArg List.reverse h0
    have h2 : ∀ x ∈ l.dropWhile wsB, wsB x = true := by
      intro x hx
      exact List.dropWhile_eq_nil_iff.mp h1 x (List.mem_reverse.mpr hx)
    have h3 : ∀ x ∈ l.takeWhile wsB, wsB x = true := by
      intro x hx
      exact List.mem_takeWhile_imp hx
    have : c ∈ l.takeWhile wsB ++ l.dropWhile wsB := by
      rwa [List.takeWhile_append_dropWhile]
    rcases List.mem_append.mp this with h | h
    · exact h3 c h
    · exact h2 c h
  · intro h
    have h1 : l.dropWhile wsB = [] := List.dropWhile_eq_nil_iff.mpr h
    simp [h1]

theorem parseList_length_countP (nd : String → String) (r : String) :
    (parseAppleScriptTaskList nd r).length =
      ((jsSplitOn r "TASK_END\n").filter (fun t => jsTrim t != "")).countP wellFormedRecord := by
  by_cases hws : (jsTrim r == "") = true
  · have hall : ∀ c ∈ r.data, wsB c = true := (trim_empty_iff r).mp (by simpa using hws)
    have hpieces : ∀ t ∈ jsSplitOn r "TASK_END\n", jsTrim t = "" := by
      intro t ht
      simp only [jsSplitOn, List.mem_map] at ht
      obtain ⟨piece, hpm, rfl⟩ := ht
      exact (trim_empty_iff _).mpr
        (splitGo_taskSep_allws r.data.length r.data [] hall (by simp) piece hpm)
    have hfil : (jsSplitOn r "TASK_END\n").filter (fun t => jsTrim t != "") = [] := by
      refine List.filter_eq_nil_iff.mpr ?_
      intro t ht
      simp [hpieces t ht]
    simp [parseAppleScriptTaskList, hws, hfil]
  · have hws' : (jsTrim r == "") = false := by simpa using hws
    simp only [parseAppleScriptTaskList, hws', Bool.false_eq_true, if_false]
    rw [foldl_push_filterMap nd, List.nil_append, List.length_filterMap_eq_countP]
    exact countP_congr_of_eq (fun a _ => parseRecord_isSome nd a)

/-- C5: the list parser keeps exactly the well-formed raw records — its
output length equals the number of non-blank records carrying both an `ID`
and a `NAME` field — and on a concrete reply of three raw records of which
exactly one is malformed (no `NAME`) it yields the two well-formed tasks. -/
theorem parser_drops_malformed :
    (∀ (nd : String → String) (r : String),
        (parseAppleScriptTaskList nd r).length =
          ((jsSplitOn r "TASK_END\n").filter (fun t => jsTrim t != "")).countP wellFormedRecord) ∧
    parseAppleScriptTaskList (fun s => s) threeRecords =
      [{ id := "1", name := "Alpha", status := "open", tags := some [] },
       { id := "3", name := "Gamma", status := "open", tags := some [] }] ∧
    ((jsSplitOn threeRecords "TASK_END\n").filter (fun t => jsTrim t != "")).length = 3 ∧
    (parseAppleScriptTaskList (fun s => s) threeRecords).length = 3 - 1 :=
  ⟨parseList_length_countP, rfl, rfl, rfl⟩

theorem jsLeap_iff (y : Nat) : jsLeap y = true ↔ specLeap y := by
  simp only [jsLeap, specLeap, Bool.or_eq_true, Bool.and_eq_true, beq_iff_eq,
    bne_iff_ne, ne_eq]
  constructor
  · rintro (⟨h4, h100⟩ | h400)
    · exact ⟨h4, Or.inl h100⟩
    · refine ⟨?_, Or.inr h400⟩
      have hmm : y % 400 % 4 = y % 4 := Nat.mod_mod_of_dvd y (by norm_num)
      rw [← hmm, h400]
  · rintro ⟨h4, h100 | h400⟩
    · exact Or.inl ⟨h4, h100⟩
    · exact Or.inr h400

theorem jsDaysInMonth_eq_spec (y m : Nat) (h1 : 1 ≤ m) (h2 : m ≤ 12) :
    jsDaysInMonth y m = specMonthLength y m := by
  have hfeb : jsDaysInMonth y 2 = specMonthLength y 2 := by
    by_cases hL : specLeap y
    · have hb : jsLeap y = true := (jsLeap_iff y).mpr hL
      simp [jsDaysInMonth, specMonthLength, hb, hL]
    · have hb : jsLeap y = false := by
        cases hjb : jsLeap y
        · rfl
        · exact absurd ((jsLeap_iff y).mp hjb) hL
      simp [jsDaysInMonth, specMonthLength, hb, hL]
  interval_cases m <;> first | rfl | exact hfeb

theorem date_range_iff (y m d : Nat) :
    (1 ≤ m ∧ m ≤ 12 ∧ 1 ≤ d ∧ d ≤ jsDaysInMonth y m) ↔ specRealDate y m d := by
  unfold specRealDate
  constructor
  · rintro ⟨h1, h2, h3, h4⟩
    exact ⟨h1, h2, h3, by rwa [jsDaysInMonth_eq_spec y m h1 h2] at h4⟩
  · rintro ⟨h1, h2, h3, h4⟩
    exact ⟨h1, h2, h3, by rwa [jsDaysInMonth_eq_spec y m h1 h2]⟩

theorem isValidDateFormat_iff (s : String) :
    isValidDateFormat s = true ↔
      specDateShape s ∧ ∃ y m d, extractYMD s = some (y, m, d) ∧ specRealDate y m d := by
  rcases s with ⟨l⟩
  rcases l with _ | ⟨c0, l⟩
  · exact iff_of_false (by simp [isValidDateFormat, extractYMD])
      (fun h => by simp [specDateShape] at h)
  rcases l with _ | ⟨c1, l⟩
  · exact iff_of_false (by simp [isValidDateFormat, extractYMD])
      (fun h => by simp [specDateShape] at h)
  rcases l with _ | ⟨c2, l⟩
  · exact iff_of_false (by simp [isValidDateFormat, extractYMD])
      (fun h => by simp [specDateShape] at h)
  rcases l with _ | ⟨c3, l⟩
  · exact iff_of_false (by simp [isValidDateFormat, extractYMD])
      (fun h => by simp [specDateShape] at h)
  rcases l with _ | ⟨c4, l⟩
  · exact iff_of_false (by simp [isValidDateFormat, extractYMD])
      (fun h => by simp [specDateShape] at h)
  rcases l with _ | ⟨c5, l⟩
  · exact iff_of_false (by simp [isValidDateFormat, extractYMD])
      (fun h => by simp [specDateShape] at h)
  rcases l with _ | ⟨c6, l⟩
  · exact iff_of_false (by simp [isValidDateFormat, extractYMD])
      (fun h => by simp [specDateShape] at h)
  rcases l with _ | ⟨c7, l⟩
  · exact iff_of_false (by simp [isValidDateFormat, extractYMD])
      (fun h => by simp [specDateShape] at h)
  rcases l with _ | ⟨c8, l⟩
  · exact iff_of_false (by simp [isValidDateFormat, extractYMD])
      (fun h => by simp [specDateShape] at h)
  rcases l with _ | ⟨c9, l⟩
  · exact iff_of_false (by simp [isValidDateFormat, extractYMD])
      (fun h => by simp [specDateShape] at h)
  rcases l with _ | ⟨c10, l⟩
  · -- exactly ten characters: the shape-bearing case
    cases hcond : (c0.isDigit && c1.isDigit && c2.isDigit && c3.isDigit && (c4 == '-') &&
        c5.isDigit && c6.isDigit && (c7 == '-') && c8.isDigit && c9.isDigit) with
    | false =>
      refine iff_of_false ?_ ?_
      · simp [isValidDateFormat, extractYMD, hcond]
      · rintro ⟨-, y, m, d, he, -⟩
        rw [extractYMD] at he
        simp [hcond] at he
    | true =>
      obtain ⟨y, m, d, hex⟩ :
          ∃ y m d, extractYMD ⟨[c0, c1, c2, c3, c4, c5, c6, c7, c8, c9]⟩ = some (y, m, d) :=
        ⟨_, _, _, if_pos hcond⟩
      have hshape : specDateShape ⟨[c0, c1, c2, c3, c4, c5, c6, c7, c8, c9]⟩ := by
        simp only [Bool.and_eq_true, beq_iff_eq] at hcond
        obtain ⟨⟨⟨⟨⟨⟨⟨⟨⟨h0, h1⟩, h2⟩, h3⟩, h4⟩, h5⟩, h6⟩, h7⟩, h8⟩, h9⟩ := hcond
        refine ⟨rfl, ?_, h4, h7⟩
        intro i hi
        fin_cases hi
        exacts [h0, h1, h2, h3, h5, h6, h8, h9]
      simp only [isValidDateFormat, hex, hshape, true_and, Option.some.injEq,
        Prod.mk.injEq, decide_eq_true_eq]
      constructor
      · intro h
        exact ⟨y, m, d, ⟨rfl, rfl, rfl⟩, (date_range_iff y m d).mp h⟩
      · rintro ⟨y', m', d', ⟨hy, hm, hd⟩, hr⟩
        subst hy; subst hm; subst hd
        exact (date_range_iff y m d).mpr hr
  · -- eleven or more characters
    exact iff_of_false (by simp [isValidDateFormat, extractYMD])
      (fun h => by simp [specDateShape] at h)

/-- C4: date validation accepts a string exactly when it matches the
`YYYY-MM-DD` shape and denotes a real calendar date; in particular the
shape-matching but non-calendar strings `2025-13-01`, `2025-02-30` and
`2025-02-29` are rejected, `2025-12-31` and the leap date `2024-02-29` are
accepted, and the shape-violating `2025-1-01` is rejected. -/
theorem date_validation_spec :
    (∀ s : String,
        isValidDateFormat s = true ↔
          specDateShape s ∧ ∃ y m d, extractYMD s = some (y, m, d) ∧ specRealDate y m d) ∧
    isValidDateFormat "2025-12-31" = true ∧
    isValidDateFormat "2024-02-29" = true ∧
    isValidDateFormat "2025-13-01" = false ∧
    isValidDateFormat "2025-02-30" = false ∧
    isValidDateFormat "2025-02-29" = false ∧
    isValidDateFormat "2025-1-01" = false :=
  ⟨isValidDateFormat_iff, rfl, rfl, rfl, rfl, rfl, rfl⟩

end Things3
